import Mathlib

/-!
Shallow embedding of `src/sum_komoditas.py` (function `process_files`).

A pandas `DataFrame` is modelled as a column schema (name/dtype pairs, in
order) together with a list of rows; a row is an association list from
column name to cell value, first binding wins.  Numeric cells are modelled
as exact integers (the measure columns hold survey household counts);
`Val.nan` models a missing value (pandas `NaN`), and pandas sums skip
`NaN`, which `valNum` reflects by mapping non-numeric cells to `0`.
An input Excel file is a name plus two optional sheets; a `none` sheet
models `pd.read_excel` raising (unreadable file or missing sheet).
-/

namespace SumKomoditas

/-- A cell value: a number, a string, or a missing value (pandas `NaN`). -/
inductive Val where
  | num : Int → Val
  | str : String → Val
  | nan : Val
deriving DecidableEq, Repr

/-- A data-frame row: column name to value, first binding wins. -/
abbrev Row := List (String × Val)

/-- Look up column `c` in a row; missing columns read as `NaN`
(pandas rows always carry every frame column, absent ones as `NaN`). -/
def getCol : Row → String → Val
  | [], _ => Val.nan
  | p :: r, c => if p.1 == c then p.2 else getCol r c

/-- Pandas column dtypes relevant to the script: the script's
`select_dtypes(include=['float64', 'int64'])` picks the first two. -/
inductive Dtype where
  | int64
  | float64
  | object
deriving DecidableEq, Repr

/-- A data frame: ordered column schema and rows. -/
structure DF where
  cols : List (String × Dtype)
  rows : List Row
deriving DecidableEq, Repr

/-- The initial `pd.DataFrame()` accumulators of `process_files`. -/
def DF.empty : DF := ⟨[], []⟩

/-- Membership test of a column name, pandas `col in df.columns`. -/
def DF.hasCol (d : DF) (c : String) : Bool := d.cols.any (fun p => p.1 == c)

/-- Dtype of a column (defaulting to `object` for absent columns). -/
def DF.dtypeOf (d : DF) (c : String) : Dtype :=
  match d.cols.find? (fun p => p.1 == c) with
  | some p => p.2
  | none => Dtype.object

/-- Column names of a frame, in order. -/
def colNames (d : DF) : List String := d.cols.map Prod.fst

/-- Column names carried by one row, in order. -/
def rowNames (r : Row) : List String := r.map Prod.fst

/-- The fixed measure columns of the script (`columns_to_sum`, lines 56-57). -/
def columnsToSum : List String :=
  ["n_rtup_tunggal", "n_rtup_campuran", "n_rtup_tumpang_sari",
   "n_rtup_asosiasi_antar_semusim", "n_rtup_jumlah", "n_rtup"]

/-- Numeric reading of a cell for summation: pandas sums skip `NaN`
(and the summed measure columns are numeric by the data model). -/
def valNum : Val → Int
  | Val.num n => n
  | Val.str _ => 0
  | Val.nan => 0

/-- Sum of column `c` over a list of rows (`df[c].sum()`). -/
def colSum (rows : List Row) (c : String) : Int :=
  (rows.map (fun r => valNum (getCol r c))).sum

/-- Sum of column `c` over the rows whose `key` column equals `k`:
the value a pandas `groupby(key)[...].sum()` produces for group `k`. -/
def keySum (rows : List Row) (key c : String) (k : Val) : Int :=
  (((rows.filter (fun r => getCol r key == k)).map
    (fun r => valNum (getCol r c)))).sum

/-- Constructor rank, used to order values of distinct kinds. -/
def Val.rank : Val → Nat
  | Val.num _ => 0
  | Val.str _ => 1
  | Val.nan => 2

/-- Boolean order on cell values used for the sorted group keys of
`groupby(..., sort=True)`: numbers by `≤`, strings lexicographically.
(Pandas raises on mixed-kind keys; the cross-kind case is an arbitrary
total completion and never arises for homogeneous key columns.) -/
def valLeB : Val → Val → Bool
  | Val.num a, Val.num b => decide (a ≤ b)
  | Val.str a, Val.str b => decide (a ≤ b)
  | a, b => decide (a.rank ≤ b.rank)

/-- Propositional form of `valLeB`. -/
def valLe (a b : Val) : Prop := valLeB a b = true

instance : DecidableRel valLe := fun a b =>
  inferInstanceAs (Decidable (valLeB a b = true))

/-- The distinct non-`NaN` values of the `key` column, in ascending order:
the group keys of `groupby(key)` (pandas sorts keys and drops `NaN` keys). -/
def sortedKeys (rows : List Row) (key : String) : List Val :=
  List.insertionSort valLe
    (((rows.map (fun r => getCol r key)).filter (fun v => v != Val.nan)).dedup)

/-- The aggregated row `groupby(key)[cols].sum().reset_index()` produces for
group `k`: the key column first, then each summed column. -/
def groupRow (rows : List Row) (key : String) (cols : List String) (k : Val) : Row :=
  (key, k) :: cols.map (fun c => (c, Val.num (keySum rows key c k)))

/-- All rows of `groupby(key)[cols].sum().reset_index()`, one per distinct
key, in ascending key order; every column other than `key` and `cols`
is dropped by the `[cols]` selection. -/
def groupSum (rows : List Row) (key : String) (cols : List String) : List Row :=
  (sortedKeys rows key).map (groupRow rows key cols)

/-- Dtype of a column present on both sides of a `pd.concat`. -/
def mixDtype : Dtype → Dtype → Dtype
  | Dtype.object, _ => Dtype.object
  | _, Dtype.object => Dtype.object
  | Dtype.int64, Dtype.int64 => Dtype.int64
  | _, _ => Dtype.float64

/-- Dtype of a column that gets `NaN`-padded on one side of a `pd.concat`
(integer columns are promoted to float by the padding). -/
def padDtype : Dtype → Dtype
  | Dtype.object => Dtype.object
  | _ => Dtype.float64

/-- The script's `pd.concat([a, b], ignore_index=True)`: rows are appended,
the schema is the ordered union, and a column absent from one non-empty
side is `NaN`-padded there (`getCol` already reads absent names as `NaN`). -/
def concatDF (a b : DF) : DF :=
  ⟨(a.cols.map (fun p =>
      (p.1, if b.hasCol p.1 then mixDtype p.2 (b.dtypeOf p.1)
            else if b.rows.isEmpty then p.2 else padDtype p.2)))
    ++ ((b.cols.filter (fun q => !(a.hasCol q.1))).map (fun q =>
      (q.1, if a.rows.isEmpty then q.2 else padDtype q.2))),
   a.rows ++ b.rows⟩

/-- The filter `df[df['kab'] == kab_code]` (lines 64 and 69); the caller
checks for the `kab` column first since `df['kab']` raises when absent. -/
def filterKab (d : DF) (code : Int) : DF :=
  ⟨d.cols, d.rows.filter (fun r => getCol r "kab" == Val.num code)⟩

/-- One input Excel file: a `none` sheet models `pd.read_excel` raising
(unreadable file, or the sheet named from the table number is missing). -/
structure XFile where
  name : String
  kabSheet : Option DF
  kecSheet : Option DF
deriving DecidableEq, Repr

/-- The two accumulators of the file loop (`result_kab`, `result_kec`). -/
structure Acc where
  resultKab : DF
  resultKec : DF
deriving DecidableEq, Repr

/-- The per-file partial aggregate of the kecamatan sheet (lines 72-73):
group the matching rows by `kec`, sum the six measure columns, then tag
every resulting row with the source file name. -/
def summedKecDF (e : DF) (code : Int) (fname : String) : DF :=
  ⟨("kec", e.dtypeOf "kec") :: columnsToSum.map (fun c => (c, e.dtypeOf c))
     ++ [("file", Dtype.object)],
   (groupSum (filterKab e code).rows "kec" columnsToSum).map
     (fun r => r ++ [("file", Val.str fname)])⟩

/-- One iteration of the file loop (lines 59-77).  The `try` block commits
`result_kab` (line 65) before the kecamatan sheet is read (line 68), so an
exception raised at any later stage keeps the already-appended `kab` rows;
each guard below models the pandas call that would raise at that point:
missing sheet (`read_excel`), missing `kab` column (`df['kab']`), missing
`kec` or measure column (`groupby('kec')[columns_to_sum]`). -/
def step (code : Int) (acc : Acc) (f : XFile) : Acc :=
  match f.kabSheet with
  | none => acc
  | some d =>
    if d.hasCol "kab" then
      let acc1 : Acc := ⟨concatDF acc.resultKab (filterKab d code), acc.resultKec⟩
      match f.kecSheet with
      | none => acc1
      | some e =>
        if e.hasCol "kab" then
          if e.hasCol "kec" && columnsToSum.all (fun c => e.hasCol c) then
            ⟨acc1.resultKab, concatDF acc1.resultKec (summedKecDF e code f.name)⟩
          else acc1
        else acc1
    else acc

/-- The whole file loop, from the two empty accumulators. -/
def runAcc (files : List XFile) (code : Int) : Acc :=
  files.foldl (step code) ⟨DF.empty, DF.empty⟩

/-- Concatenation of a per-file row contribution over the file list. -/
def contribs (g : XFile → List Row) : List XFile → List Row
  | [] => []
  | f :: t => g f ++ contribs g t

/-- Rows a file appends to `result_kab`: its filtered kabupaten-sheet rows
when the sheet loads and has a `kab` column, nothing otherwise. -/
def kabContrib (code : Int) (f : XFile) : List Row :=
  match f.kabSheet with
  | some d => if d.hasCol "kab" then (filterKab d code).rows else []
  | none => []

/-- Whether a file reaches the `result_kec` update without raising: both
sheets load, both have `kab`, and the kecamatan sheet has `kec` and all
six measure columns. -/
def kecOk (f : XFile) : Bool :=
  match f.kabSheet, f.kecSheet with
  | some d, some e =>
    d.hasCol "kab" && (e.hasCol "kab" &&
      (e.hasCol "kec" && columnsToSum.all (fun c => e.hasCol c)))
  | _, _ => false

/-- The rows of an optional sheet that match the requested district code
(empty when the sheet failed to load). -/
def sheetMatchRows (s : Option DF) (code : Int) : List Row :=
  match s with
  | some d => (filterKab d code).rows
  | none => []

/-- Rows a file appends to `result_kec`: its per-file partial aggregate
when every stage succeeds, nothing otherwise. -/
def kecContrib (code : Int) (f : XFile) : List Row :=
  if kecOk f then
    (groupSum (sheetMatchRows f.kecSheet code) "kec" columnsToSum).map
      (fun r => r ++ [("file", Val.str f.name)])
  else []

/-- The raw matching kecamatan-sheet rows of a successfully processed file
(the one-stage reading of the data that `kecContrib` pre-aggregates). -/
def kecMatchRows (code : Int) (f : XFile) : List Row :=
  if kecOk f then sheetMatchRows f.kecSheet code else []

/-- Whether a file already fails at the kabupaten-sheet stage (before
anything is committed): unreadable sheet or missing `kab` column. -/
def kabBad (f : XFile) : Bool :=
  match f.kabSheet with
  | none => true
  | some d => !d.hasCol "kab"

/-- The columns summed for the district summary (lines 85-86): numeric
dtypes, minus the two excluded identifier columns. -/
def rowToSum (d : DF) : List String :=
  ((d.cols.filter (fun p => p.2 == Dtype.int64 || p.2 == Dtype.float64)).map
    Prod.fst).filter (fun c => !(c == "id_komoditas" || c == "ID"))

/-- The one summed row `pd.DataFrame(result_kab[row_to_sum].sum()).T`
(lines 89-90), before identifier columns are attached. -/
def baseRow (d : DF) : Row :=
  (rowToSum d).map (fun c => (c, Val.num (colSum d.rows c)))

/-- The representative value `result_kab[col].iloc[0]` (line 96). -/
def firstVal (d : DF) (c : String) : Val :=
  getCol (d.rows.head?.getD []) c

/-- Column assignment `row[c] = v`: overwrite the binding of an existing
column in place, otherwise append the new column at the end (data-frame
rows bind each column name once). -/
def setCol : Row → String → Val → Row
  | [], c, v => [(c, v)]
  | p :: r, c, v => if p.1 == c then (c, v) :: r else p :: setCol r c v

/-- The identifier-attachment loop of the district summary (lines 93-98):
for each of `id_prov`, `id_kab` present in the accumulated data, set the
renamed column (the new name is `col.replace("id_", "")` in the source) to
the first accumulated row's value; absent columns are logged and skipped. -/
def attachKabIds (d : DF) (base : Row) : Row :=
  [("id_prov", "prov"), ("id_kab", "kab")].foldl
    (fun r p => if d.hasCol p.1 then setCol r p.2 (firstVal d p.1) else r) base

/-- The district summary (lines 80-98): `None` when no row was accumulated,
otherwise the single summed row with identifiers attached. -/
def summaryKab (rk : DF) : Option Row :=
  if rk.rows.isEmpty then none
  else some (attachKabIds rk (baseRow rk))

/-- Pandas `astype(str)` on a cell. -/
def astypeStr : Val → Val
  | Val.num n => Val.str (toString n)
  | Val.str s => Val.str s
  | Val.nan => Val.str "nan"

/-- Column assignment `df[c] = df[col].astype(str)` on a frame: new column
dtype `object`, value computed row-wise. -/
def setColDF (d : DF) (c : String) (f : Row → Val) : DF :=
  ⟨(if d.hasCol c then
      d.cols.map (fun p => if p.1 == c then (c, Dtype.object) else p)
    else d.cols ++ [(c, Dtype.object)]),
   d.rows.map (fun r => setCol r c (f r))⟩

/-- The identifier-attachment loop of the kecamatan summary (lines 108-113):
for each of `id_prov`, `id_kab`, `id_kec` present in the (re-grouped) data,
set the renamed column to the text-converted values; absent columns are
logged and skipped. -/
def attachKecIds (d : DF) : DF :=
  [("id_prov", "prov"), ("id_kab", "kab"), ("id_kec", "kec")].foldl
    (fun dd p =>
      if dd.hasCol p.1 then setColDF dd p.2 (fun r => astypeStr (getCol r p.1))
      else dd) d

/-- The kecamatan post-processing (lines 100-116): when rows were
accumulated, re-group them by `kec` summing the six measure columns (which
drops the `file` tag and every other column), run the identifier loop, and
append the row-wise `SUM` column; an empty accumulator is returned as is. -/
def finalKec (rc : DF) : DF :=
  if rc.rows.isEmpty then rc
  else
    let g := groupSum rc.rows "kec" columnsToSum
    let d1 : DF :=
      ⟨("kec", rc.dtypeOf "kec") :: columnsToSum.map (fun c => (c, rc.dtypeOf c)), g⟩
    let d2 := attachKecIds d1
    ⟨d2.cols ++ [("SUM", Dtype.int64)],
     d2.rows.map (fun r =>
       r ++ [("SUM", Val.num ((columnsToSum.map (fun c => valNum (getCol r c))).sum))])⟩

/-- The whole of `process_files` after file discovery: the `files` argument
is the glob result (line 45); with no candidate files the function returns
`(None, None)` at once (lines 47-49), otherwise it runs the file loop and
the two post-processing stages.  The second component is always a frame
(possibly empty) in that case, never `None`. -/
def processFiles (files : List XFile) (code : Int) : Option Row × Option DF :=
  if files.isEmpty then (none, none)
  else (summaryKab (runAcc files code).resultKab,
        some (finalKec (runAcc files code).resultKec))

/-! Concrete demo inputs, used to instantiate the theorems below.  The two
files realise the worked example of the data: district 7205, sub-district
rows split across files, one file with extra identifier columns, one file
with a missing kecamatan sheet, one file with no matching rows. -/

/-- Shorthand for a kecamatan-sheet row carrying the six measure columns. -/
def mkKecRow (kabv kecv t c ts a j n : Int) : Row :=
  [("kab", Val.num kabv), ("kec", Val.num kecv),
   ("n_rtup_tunggal", Val.num t), ("n_rtup_campuran", Val.num c),
   ("n_rtup_tumpang_sari", Val.num ts),
   ("n_rtup_asosiasi_antar_semusim", Val.num a),
   ("n_rtup_jumlah", Val.num j), ("n_rtup", Val.num n)]

/-- Schema of a plain kecamatan sheet. -/
def kecCols : List (String × Dtype) :=
  ("kab", Dtype.int64) :: ("kec", Dtype.int64)
    :: columnsToSum.map (fun c => (c, Dtype.int64))

/-- First demo file: an extra identifier column `id_kab` on the district
sheet, and kecamatan rows for two sub-districts (plus a non-matching row). -/
def fileA : XFile :=
  ⟨"a.xlsx",
   some ⟨[("kab", Dtype.int64), ("id_prov", Dtype.int64),
          ("id_kab", Dtype.int64), ("x", Dtype.int64)],
         [[("kab", Val.num 7205), ("id_prov", Val.num 72),
           ("id_kab", Val.num 99), ("x", Val.num 1)]]⟩,
   some ⟨kecCols,
         [mkKecRow 7205 2 1 2 3 4 10 10,
          mkKecRow 7205 1 0 0 0 0 0 10,
          mkKecRow 7205 1 0 0 0 0 0 5,
          mkKecRow 9999 1 0 0 0 0 0 100]⟩⟩

/-- Second demo file: a plainer schema, one more row for sub-district 1. -/
def fileB : XFile :=
  ⟨"b.xlsx",
   some ⟨[("kab", Dtype.int64), ("x", Dtype.int64)],
         [[("kab", Val.num 7205), ("x", Val.num 2)]]⟩,
   some ⟨kecCols, [mkKecRow 7205 1 0 0 0 0 0 3]⟩⟩

/-- The run used by most witnesses. -/
def demoFiles : List XFile := [fileA, fileB]

/-- A fully well-formed file whose kecamatan sheet has no matching rows. -/
def fileGood : XFile :=
  ⟨"good.xlsx",
   some ⟨[("kab", Dtype.int64), ("x", Dtype.int64)],
         [[("kab", Val.num 7205), ("x", Val.num 1)]]⟩,
   some ⟨kecCols, []⟩⟩

/-- A file that fails at the kecamatan stage: the district sheet loads and
its matching row is appended, then reading the kecamatan sheet raises. -/
def fileBad : XFile :=
  ⟨"bad.xlsx",
   some ⟨[("kab", Dtype.int64), ("x", Dtype.int64)],
         [[("kab", Val.num 7205), ("x", Val.num 10)]]⟩,
   none⟩

/-- A file that fails outright: the district sheet itself cannot be read. -/
def fileUnreadable : XFile := ⟨"broken.xlsx", none, none⟩

/-- A readable file none of whose rows match district 7205. -/
def fileNoMatch : XFile :=
  ⟨"nomatch.xlsx",
   some ⟨[("kab", Dtype.int64), ("x", Dtype.int64)],
         [[("kab", Val.num 1111), ("x", Val.num 5)]]⟩,
   some ⟨kecCols, [mkKecRow 1111 3 1 1 1 1 4 4]⟩⟩

/-- A file whose kecamatan sheet carries the three identifier columns. -/
def fileIds : XFile :=
  ⟨"ids.xlsx",
   some ⟨[("kab", Dtype.int64)], [[("kab", Val.num 7205)]]⟩,
   some ⟨("id_prov", Dtype.int64) :: ("id_kab", Dtype.int64)
           :: ("id_kec", Dtype.int64) :: kecCols,
         [("id_prov", Val.num 72) :: ("id_kab", Val.num 7205)
            :: ("id_kec", Val.num 720510) :: mkKecRow 7205 1 1 1 1 1 4 4]⟩⟩

/-- The district-summary row the demo run produces: the summed row with
`prov` appended and the summed `kab` cell overwritten by `id_kab`'s first
value (99), where the plain column sum would have been `7205 + 7205`. -/
def demoSummaryRow : Row :=
  [("kab", Val.num 99), ("id_prov", Val.num 72), ("id_kab", Val.num 99),
   ("x", Val.num 3), ("prov", Val.num 72)]

/-! Basic lemmas about row lookup, column assignment and group sums. -/

@[simp]
theorem getCol_nil (c : String) : getCol [] c = Val.nan := rfl

theorem getCol_cons_eq (n : String) (v : Val) (r : Row) :
    getCol ((n, v) :: r) n = v := by
  simp [getCol]

theorem getCol_cons_ne (n : String) (v : Val) (r : Row) (c : String)
    (h : ¬ n = c) : getCol ((n, v) :: r) c = getCol r c := by
  have hb : (n == c) = false := beq_eq_false_iff_ne.mpr h
  simp [getCol, hb]

theorem getCol_eq_nan (r : Row) (c : String)
    (h : ∀ p ∈ r, ¬ p.1 = c) : getCol r c = Val.nan := by
  induction r with
  | nil => rfl
  | cons p t ih =>
    obtain ⟨n, v⟩ := p
    rw [getCol_cons_ne n v t c (h (n, v) (List.mem_cons_self _ _))]
    exact ih (fun q hq => h q (List.mem_cons_of_mem _ hq))

theorem getCol_append_single (r : Row) (n : String) (v : Val) (c : String)
    (h : ¬ c = n) : getCol (r ++ [(n, v)]) c = getCol r c := by
  induction r with
  | nil =>
    rw [List.nil_append, getCol_cons_ne n v [] c (fun hh => h hh.symm)]
  | cons p t ih =>
    obtain ⟨m, w⟩ := p
    by_cases hm : m = c
    · subst hm
      rw [List.cons_append, getCol_cons_eq, getCol_cons_eq]
    · rw [List.cons_append, getCol_cons_ne m w _ c hm,
        getCol_cons_ne m w t c hm, ih]

theorem getCol_mapPairs (f : String → Val) (cs : List String) (c : String)
    (hc : c ∈ cs) :
    getCol (cs.map (fun x => (x, f x))) c = f c := by
  induction cs with
  | nil => cases hc
  | cons a t ih =>
    by_cases h : a = c
    · subst h
      rw [List.map_cons, getCol_cons_eq]
    · rcases List.mem_cons.mp hc with h1 | h1
      · exact absurd h1.symm h
      · rw [List.map_cons, getCol_cons_ne a (f a) _ c h]
        exact ih h1

theorem getCol_mapPairs_not_mem (f : String → Val) (cs : List String) (c : String)
    (hc : c ∉ cs) :
    getCol (cs.map (fun x => (x, f x))) c = Val.nan := by
  induction cs with
  | nil => rfl
  | cons a t ih =>
    have h : ¬ a = c := fun hh => hc (hh ▸ List.mem_cons_self a t)
    rw [List.map_cons, getCol_cons_ne a (f a) _ c h]
    exact ih (fun hh => hc (List.mem_cons_of_mem a hh))

theorem getCol_groupRow_key (rows : List Row) (key : String) (cols : List String)
    (k : Val) : getCol (groupRow rows key cols k) key = k := by
  unfold groupRow
  exact getCol_cons_eq key k _

theorem getCol_groupRow_mem (rows : List Row) (key : String) (cols : List String)
    (k : Val) (c : String) (hc : c ∈ cols) (hck : ¬ key = c) :
    getCol (groupRow rows key cols k) c = Val.num (keySum rows key c k) := by
  unfold groupRow
  rw [getCol_cons_ne key k _ c hck]
  exact getCol_mapPairs (fun c => Val.num (keySum rows key c k)) cols c hc

theorem getCol_groupRow_not_mem (rows : List Row) (key : String)
    (cols : List String) (k : Val) (c : String) (hc : c ∉ cols) (hck : ¬ key = c) :
    getCol (groupRow rows key cols k) c = Val.nan := by
  unfold groupRow
  rw [getCol_cons_ne key k _ c hck]
  exact getCol_mapPairs_not_mem _ cols c hc

theorem rowNames_groupRow (rows : List Row) (key : String) (cols : List String)
    (k : Val) : rowNames (groupRow rows key cols k) = key :: cols := by
  simp [groupRow, rowNames, List.map_map, Function.comp_def]

theorem getCol_setCol_self (r : Row) (n : String) (v : Val) :
    getCol (setCol r n v) n = v := by
  induction r with
  | nil => exact getCol_cons_eq n v []
  | cons p t ih =>
    obtain ⟨m, w⟩ := p
    by_cases hm : m = n
    · subst hm
      rw [setCol, if_pos (by simp), getCol_cons_eq]
    · rw [setCol, if_neg (by simpa using hm),
        getCol_cons_ne m w _ n hm]
      exact ih

theorem getCol_setCol_ne (r : Row) (c n : String) (v : Val) (h : ¬ c = n) :
    getCol (setCol r n v) c = getCol r c := by
  induction r with
  | nil =>
    exact getCol_cons_ne n v [] c (fun hh => h hh.symm)
  | cons p t ih =>
    obtain ⟨m, w⟩ := p
    by_cases hm : m = n
    · subst hm
      rw [setCol, if_pos (by simp), getCol_cons_ne m v t c (fun hh => h hh.symm)]
      by_cases hmc : m = c
      · exact absurd hmc.symm (fun hh => h (hh ▸ rfl))
      · rw [getCol_cons_ne m w t c hmc]
    · rw [setCol, if_neg (by simpa using hm)]
      by_cases hmc : m = c
      · subst hmc
        rw [getCol_cons_eq, getCol_cons_eq]
      · rw [getCol_cons_ne m w _ c hmc, getCol_cons_ne m w t c hmc]
        exact ih

theorem mem_rowNames_setCol (r : Row) (n : String) (v : Val) (c : String) :
    c ∈ rowNames (setCol r n v) ↔ (c ∈ rowNames r ∨ c = n) := by
  induction r with
  | nil => simp [setCol, rowNames]
  | cons p t ih =>
    obtain ⟨m, w⟩ := p
    by_cases hm : m = n
    · subst hm
      rw [setCol, if_pos (by simp)]
      simp only [rowNames, List.map_cons]
      constructor
      · rintro h
        rcases List.mem_cons.mp h with h | h
        · exact Or.inr h
        · exact Or.inl (List.mem_cons_of_mem _ h)
      · rintro (h | h)
        · rcases List.mem_cons.mp h with h | h
          · exact h ▸ List.mem_cons_self _ _
          · exact List.mem_cons_of_mem _ h
        · exact h ▸ List.mem_cons_self _ _
    · rw [setCol, if_neg (by simpa using hm)]
      simp only [rowNames, List.map_cons] at *
      constructor
      · intro h
        rcases List.mem_cons.mp h with h | h
        · exact Or.inl (h ▸ List.mem_cons_self _ _)
        · rcases ih.mp h with h | h
          · exact Or.inl (List.mem_cons_of_mem _ h)
          · exact Or.inr h
      · rintro (h | h)
        · rcases List.mem_cons.mp h with h | h
          · exact h ▸ List.mem_cons_self _ _
          · exact List.mem_cons_of_mem _ (ih.mpr (Or.inl h))
        · exact List.mem_cons_of_mem _ (ih.mpr (Or.inr h))

/-! Group-sum lemmas: the heart of the two-stage aggregation claim. -/

@[simp]
theorem keySum_nil (key c : String) (k : Val) : keySum [] key c k = 0 := rfl

theorem keySum_cons (r : Row) (l : List Row) (key c : String) (k : Val) :
    keySum (r :: l) key c k
      = (if getCol r key == k then valNum (getCol r c) else 0)
          + keySum l key c k := by
  simp only [keySum, List.filter_cons]
  by_cases h : getCol r key == k
  · simp [h]
  · simp [h]

theorem keySum_append (a b : List Row) (key c : String) (k : Val) :
    keySum (a ++ b) key c k = keySum a key c k + keySum b key c k := by
  simp [keySum, List.filter_append]

theorem keySum_map_tag (l : List Row) (key c n : String) (v : Val) (k : Val)
    (hkey : ¬ key = n) (hc : ¬ c = n) :
    keySum (l.map (fun r => r ++ [(n, v)])) key c k = keySum l key c k := by
  induction l with
  | nil => rfl
  | cons r t ih =>
    simp only [List.map_cons, keySum_cons, ih,
      getCol_append_single r n v key hkey, getCol_append_single r n v c hc]

theorem mem_sortedKeys (rows : List Row) (key : String) (k : Val) :
    k ∈ sortedKeys rows key
      ↔ (¬ k = Val.nan ∧ ∃ r ∈ rows, getCol r key = k) := by
  unfold sortedKeys
  rw [(List.perm_insertionSort valLe _).mem_iff, List.mem_dedup, List.mem_filter]
  simp only [List.mem_map, bne_iff_ne, ne_eq]
  constructor
  · rintro ⟨⟨r, hr, hrk⟩, hk⟩
    exact ⟨hk, r, hr, hrk⟩
  · rintro ⟨hk, r, hr, hrk⟩
    exact ⟨⟨r, hr, hrk⟩, hk⟩

theorem nodup_sortedKeys (rows : List Row) (key : String) :
    (sortedKeys rows key).Nodup := by
  unfold sortedKeys
  exact ((List.perm_insertionSort valLe _).nodup_iff).mpr (List.nodup_dedup _)

instance : IsTotal Val valLe := by
  constructor
  intro a b
  cases a <;> cases b <;>
    simp [valLe, valLeB, Val.rank] <;> exact le_total _ _

instance : IsTrans Val valLe := by
  constructor
  intro a b c hab hbc
  cases a <;> cases b <;> cases c <;>
    simp_all [valLe, valLeB, Val.rank] <;> exact le_trans hab hbc

theorem sorted_sortedKeys (rows : List Row) (key : String) :
    (sortedKeys rows key).Sorted valLe :=
  List.sorted_insertionSort valLe _

theorem keySum_mapGroupRow (rows : List Row) (key : String) (cols : List String)
    (c : String) (hc : c ∈ cols) (hck : ¬ key = c) (k : Val)
    (ks : List Val) (hnd : ks.Nodup) :
    keySum (ks.map (groupRow rows key cols)) key c k
      = if k ∈ ks then keySum rows key c k else 0 := by
  induction ks with
  | nil => simp
  | cons a t ih =>
    obtain ⟨hat, hndt⟩ := List.nodup_cons.mp hnd
    rw [List.map_cons, keySum_cons, getCol_groupRow_key]
    by_cases hak : a = k
    · subst hak
      rw [if_pos (by simp), ih hndt, if_neg hat,
        if_pos (List.mem_cons_self a t),
        getCol_groupRow_mem rows key cols a c hc hck]
      simp [valNum]
    · rw [if_neg (by simp [hak]), ih hndt]
      have hka : ¬ k = a := fun hh => hak hh.symm
      by_cases hkt : k ∈ t
      · simp [hkt, List.mem_cons]
      · simp [hkt, List.mem_cons, hka]

theorem keySum_groupSum (rows : List Row) (key : String) (cols : List String)
    (c : String) (hc : c ∈ cols) (hck : ¬ key = c) (k : Val)
    (hk : ¬ k = Val.nan) :
    keySum (groupSum rows key cols) key c k = keySum rows key c k := by
  unfold groupSum
  rw [keySum_mapGroupRow rows key cols c hc hck k _ (nodup_sortedKeys rows key)]
  by_cases hm : k ∈ sortedKeys rows key
  · rw [if_pos hm]
  · rw [if_neg hm]
    have hnone : ∀ r ∈ rows, ¬ (getCol r key == k) := by
      intro r hr hcon
      exact hm ((mem_sortedKeys rows key k).mpr ⟨hk, r, hr, beq_iff_eq.mp hcon⟩)
    unfold keySum
    rw [List.filter_eq_nil_iff.mpr (by simpa using hnone)]
    rfl

/-! Characterisation of the file loop: each accumulator is exactly the
concatenation of the per-file contributions, in file order. -/

@[simp]
theorem concatDF_rows (a b : DF) : (concatDF a b).rows = a.rows ++ b.rows := rfl

theorem step_resultKab_rows (code : Int) (acc : Acc) (f : XFile) :
    (step code acc f).resultKab.rows
      = acc.resultKab.rows ++ kabContrib code f := by
  obtain ⟨nm, kabS, kecS⟩ := f
  cases kabS with
  | none => simp [step, kabContrib]
  | some d =>
    by_cases h : d.hasCol "kab"
    · cases kecS with
      | none => simp [step, kabContrib, h]
      | some e =>
        by_cases h2 : e.hasCol "kab"
        · by_cases h3 : (e.hasCol "kec" && columnsToSum.all (fun c => e.hasCol c))
            = true
          · simp [step, kabContrib, h, h2, h3]
          · simp [step, kabContrib, h, h2, h3]
        · simp [step, kabContrib, h, h2]
    · simp [step, kabContrib, h]

theorem step_of_kabBad (code : Int) (acc : Acc) (f : XFile)
    (h : kabBad f = true) : step code acc f = acc := by
  obtain ⟨nm, kabS, kecS⟩ := f
  cases kabS with
  | none => rfl
  | some d =>
    simp only [kabBad, Bool.not_eq_true'] at h
    simp [step, h]

theorem step_resultKec_of_not_kecOk (code : Int) (acc : Acc) (f : XFile)
    (h : kecOk f = false) : (step code acc f).resultKec = acc.resultKec := by
  obtain ⟨nm, kabS, kecS⟩ := f
  cases kabS with
  | none => rfl
  | some d =>
    cases kecS with
    | none =>
      by_cases h1 : d.hasCol "kab" <;> simp [step, h1]
    | some e =>
      simp only [kecOk] at h
      by_cases h1 : d.hasCol "kab"
      · rw [h1, Bool.true_and] at h
        by_cases h2 : e.hasCol "kab"
        · rw [h2, Bool.true_and] at h
          simp [step, h1, h2, h]
        · simp [step, h1, h2]
      · simp [step, h1]

theorem step_resultKec_rows (code : Int) (acc : Acc) (f : XFile) :
    (step code acc f).resultKec.rows
      = acc.resultKec.rows ++ kecContrib code f := by
  by_cases hko : kecOk f = true
  · obtain ⟨nm, kabS, kecS⟩ := f
    cases kabS with
    | none => simp [kecOk] at hko
    | some d =>
      cases kecS with
      | none => simp [kecOk] at hko
      | some e =>
        have hko2 := hko
        simp only [kecOk, Bool.and_eq_true] at hko2
        obtain ⟨h1, h2, h3⟩ := hko2
        simp [step, kecContrib, sheetMatchRows, summedKecDF, h1, h2, h3,
          Bool.and_eq_true, hko]
  · have hfalse : kecOk f = false := by simpa using hko
    have h := step_resultKec_of_not_kecOk code acc f hfalse
    unfold kecContrib
    rw [hfalse, h]
    simp

theorem foldl_resultKab_rows (files : List XFile) (code : Int) (acc : Acc) :
    ((files.foldl (step code) acc).resultKab).rows
      = acc.resultKab.rows ++ contribs (kabContrib code) files := by
  induction files generalizing acc with
  | nil => simp [contribs]
  | cons f t ih =>
    rw [List.foldl_cons, ih, step_resultKab_rows]
    simp [contribs]

theorem foldl_resultKec_rows (files : List XFile) (code : Int) (acc : Acc) :
    ((files.foldl (step code) acc).resultKec).rows
      = acc.resultKec.rows ++ contribs (kecContrib code) files := by
  induction files generalizing acc with
  | nil => simp [contribs]
  | cons f t ih =>
    rw [List.foldl_cons, ih, step_resultKec_rows]
    simp [contribs]

theorem runAcc_resultKab_rows (files : List XFile) (code : Int) :
    (runAcc files code).resultKab.rows = contribs (kabContrib code) files := by
  unfold runAcc
  rw [foldl_resultKab_rows]
  rfl

theorem runAcc_resultKec_rows (files : List XFile) (code : Int) :
    (runAcc files code).resultKec.rows = contribs (kecContrib code) files := by
  unfold runAcc
  rw [foldl_resultKec_rows]
  rfl

/-! The three identifier names are never columns of the re-grouped
kecamatan frame, so the attachment loop of lines 108-113 is the identity. -/

theorem any_fst_mapPairsD (f : String → Dtype) (cs : List String) (c : String) :
    ((cs.map (fun x => (x, f x))).any (fun p => p.1 == c))
      = cs.any (fun x => x == c) := by
  induction cs with
  | nil => rfl
  | cons a t ih => simp [ih]

theorem hasCol_consPairs (n : String) (dt : Dtype) (dts : String → Dtype)
    (cs : List String) (g : List Row) (c : String) :
    DF.hasCol ⟨(n, dt) :: cs.map (fun x => (x, dts x)), g⟩ c
      = ((n == c) || cs.any (fun x => x == c)) := by
  show ((n, dt) :: cs.map (fun x => (x, dts x))).any (fun p => p.1 == c) = _
  rw [List.any_cons, any_fst_mapPairsD]

theorem attachKecIds_of_absent (d : DF)
    (h1 : d.hasCol "id_prov" = false) (h2 : d.hasCol "id_kab" = false)
    (h3 : d.hasCol "id_kec" = false) : attachKecIds d = d := by
  unfold attachKecIds
  rw [List.foldl_cons, if_neg (by simp [h1]), List.foldl_cons,
    if_neg (by simp [h2]), List.foldl_cons, if_neg (by simp [h3]),
    List.foldl_nil]

/-- The kecamatan post-processing on a non-empty accumulator, with the
identity identifier loop already discharged. -/
theorem finalKec_eq (rc : DF) (h : ¬ rc.rows = []) :
    finalKec rc =
      ⟨("kec", rc.dtypeOf "kec")
         :: columnsToSum.map (fun c => (c, rc.dtypeOf c)) ++ [("SUM", Dtype.int64)],
       (groupSum rc.rows "kec" columnsToSum).map (fun r =>
         r ++ [("SUM",
           Val.num ((columnsToSum.map (fun c => valNum (getCol r c))).sum))])⟩ := by
  unfold finalKec
  rw [if_neg (by simpa [List.isEmpty_iff] using h)]
  simp only []
  rw [attachKecIds_of_absent _ (by rw [hasCol_consPairs]; decide)
    (by rw [hasCol_consPairs]; decide) (by rw [hasCol_consPairs]; decide)]

/-- Shape of any row of the final kecamatan summary: an aggregated group
row for some key, with the `SUM` cell appended. -/
theorem mem_finalKec_rows (rc : DF) (r : Row)
    (hr : r ∈ (finalKec rc).rows) :
    ∃ k ∈ sortedKeys rc.rows "kec",
      r = groupRow rc.rows "kec" columnsToSum k
            ++ [("SUM", Val.num ((columnsToSum.map (fun c =>
                  valNum (getCol (groupRow rc.rows "kec" columnsToSum k) c))).sum))] := by
  by_cases h : rc.rows = []
  · unfold finalKec at hr
    rw [if_pos (by simpa [List.isEmpty_iff] using h)] at hr
    rw [h] at hr
    cases hr
  · rw [finalKec_eq rc h] at hr
    unfold groupSum at hr
    simp only [List.map_map, List.mem_map] at hr
    obtain ⟨k, hk, hkr⟩ := hr
    exact ⟨k, hk, hkr.symm⟩

/-- The six measure-column names avoid the bookkeeping names used around
them, and repeat none of them. -/
theorem columnsToSum_names :
    ∀ c ∈ columnsToSum, ¬ c = "kec" ∧ ¬ c = "SUM" ∧ ¬ c = "file"
      ∧ ¬ c = "kab" ∧ ¬ c = "prov" := by decide

theorem getCol_append_last (r : Row) (n : String) (v : Val)
    (h : ∀ p ∈ r, ¬ p.1 = n) : getCol (r ++ [(n, v)]) n = v := by
  induction r with
  | nil => exact getCol_cons_eq n v []
  | cons p t ih =>
    obtain ⟨m, w⟩ := p
    rw [List.cons_append, getCol_cons_ne m w _ n (h (m, w) (List.mem_cons_self _ _))]
    exact ih (fun q hq => h q (List.mem_cons_of_mem _ hq))

theorem map_valNum_append_single (g : Row) (n : String) (v : Val)
    (h : ∀ c ∈ columnsToSum, ¬ c = n) :
    columnsToSum.map (fun c => valNum (getCol (g ++ [(n, v)]) c))
      = columnsToSum.map (fun c => valNum (getCol g c)) := by
  apply List.map_congr_left
  intro c hc
  rw [getCol_append_single _ _ _ _ (h c hc)]

theorem processFiles_snd (files : List XFile) (code : Int) (d : DF)
    (hd : (processFiles files code).2 = some d) :
    d = finalKec (runAcc files code).resultKec := by
  unfold processFiles at hd
  by_cases hf : files.isEmpty = true
  · rw [if_pos hf] at hd
    exact Option.noConfusion hd
  · rw [if_neg hf] at hd
    exact (Option.some.inj hd).symm

theorem keySum_kecContrib_eq (code : Int) (files : List XFile) (c : String)
    (hc : c ∈ columnsToSum) (k : Int) :
    keySum (contribs (kecContrib code) files) "kec" c (Val.num k)
      = keySum (contribs (kecMatchRows code) files) "kec" c (Val.num k) := by
  induction files with
  | nil => rfl
  | cons f t ih =>
    rw [contribs, contribs, keySum_append, keySum_append, ih]
    congr 1
    unfold kecContrib kecMatchRows
    by_cases hko : kecOk f = true
    · rw [if_pos hko, if_pos hko,
        keySum_map_tag _ _ _ _ _ _ (by decide) (columnsToSum_names c hc).2.2.1]
      exact keySum_groupSum (sheetMatchRows f.kecSheet code) "kec" columnsToSum c
        hc (fun hh => (columnsToSum_names c hc).1 hh.symm) (Val.num k)
        (fun hh => Val.noConfusion hh)
    · rw [if_neg hko, if_neg hko]

/-! The ten claims, in order. -/

/-- C1: for every run, every sub-district code `k` and every one of the six
fixed measure columns, the value of that column in the final sub-district
summary row for `k` equals the arithmetic one-stage sum of the column over
all kecamatan-sheet rows with `kec = k` and `kab` equal to the requested
code, across all successfully processed files: the two-stage aggregation
(within-file group-and-sum, then cross-file group-and-sum) equals a single
one-stage sum, however the rows are split across files. -/
theorem c1_two_stage_eq_one_stage (files : List XFile) (code : Int) (k : Int)
    (c : String) (hc : c ∈ columnsToSum) (d : DF) (r : Row)
    (hd : (processFiles files code).2 = some d) (hr : r ∈ d.rows)
    (hk : getCol r "kec" = Val.num k) :
    getCol r c
      = Val.num (keySum (contribs (kecMatchRows code) files) "kec" c (Val.num k)) := by
  rw [processFiles_snd files code d hd] at hr
  obtain ⟨kv, hkv, hkr⟩ :=
    mem_finalKec_rows (runAcc files code).resultKec r hr
  subst hkr
  rw [getCol_append_single _ _ _ _ (by decide), getCol_groupRow_key] at hk
  subst hk
  rw [getCol_append_single _ _ _ _ (columnsToSum_names c hc).2.1,
    getCol_groupRow_mem _ _ _ _ c hc (fun hh => (columnsToSum_names c hc).1 hh.symm),
    runAcc_resultKec_rows, keySum_kecContrib_eq code files c hc k]

/-- Witness for C1 at the demo run: the summary row for sub-district 1
carries `n_rtup = 18`, the one-stage sum `10 + 5` (file A) `+ 3` (file B). -/
theorem c1_witness :
    getCol ((finalKec (runAcc demoFiles 7205).resultKec).rows.head?.getD [])
        "n_rtup"
      = Val.num (keySum (contribs (kecMatchRows 7205) demoFiles) "kec" "n_rtup"
          (Val.num 1)) :=
  c1_two_stage_eq_one_stage demoFiles 7205 1 "n_rtup" (by decide) _ _ rfl
    (by decide) (by decide)

/-- C3: in every returned sub-district summary, the `SUM` cell of each row
equals the row-wise arithmetic sum of that row's six fixed measure
columns. -/
theorem c3_sum_column (files : List XFile) (code : Int) (d : DF) (r : Row)
    (hd : (processFiles files code).2 = some d) (hr : r ∈ d.rows) :
    getCol r "SUM"
      = Val.num ((columnsToSum.map (fun c => valNum (getCol r c))).sum) := by
  rw [processFiles_snd files code d hd] at hr
  obtain ⟨k, hk, hkr⟩ :=
    mem_finalKec_rows (runAcc files code).resultKec r hr
  subst hkr
  have hnames : ∀ p ∈ groupRow (runAcc files code).resultKec.rows "kec"
      columnsToSum k, ¬ p.1 = "SUM" := by
    intro p hp
    have hmem : p.1 ∈ rowNames (groupRow (runAcc files code).resultKec.rows
        "kec" columnsToSum k) := List.mem_map_of_mem Prod.fst hp
    rw [rowNames_groupRow] at hmem
    rcases List.mem_cons.mp hmem with h | h
    · intro hcon
      rw [h] at hcon
      exact absurd hcon (by decide)
    · exact (columnsToSum_names p.1 h).2.1
  rw [getCol_append_last _ _ _ hnames,
    map_valNum_append_single _ _ _ (fun c hc => (columnsToSum_names c hc).2.1)]

/-- Witness for C3 at the demo run: the first summary row satisfies the
row-wise `SUM` equation. -/
theorem c3_witness :
    getCol ((finalKec (runAcc demoFiles 7205).resultKec).rows.head?.getD [])
        "SUM"
      = Val.num ((columnsToSum.map (fun c => valNum (getCol
          ((finalKec (runAcc demoFiles 7205).resultKec).rows.head?.getD [])
          c))).sum) :=
  c3_sum_column demoFiles 7205 _ _ rfl (by decide)

/-- C10: in every returned sub-district summary, rows appear in ascending
order of the sub-district code `kec` (numeric codes compared as integers),
whatever the order of the input files or of the rows within each file. -/
theorem c10_sorted_by_kec (files : List XFile) (code : Int) (d : DF)
    (hd : (processFiles files code).2 = some d) :
    d.rows.Pairwise (fun r1 r2 => ∀ a b : Int,
      getCol r1 "kec" = Val.num a → getCol r2 "kec" = Val.num b → a ≤ b) := by
  rw [processFiles_snd files code d hd]
  by_cases hRC : (runAcc files code).resultKec.rows = []
  · unfold finalKec
    rw [if_pos (by simpa [List.isEmpty_iff] using hRC), hRC]
    exact List.Pairwise.nil
  · rw [finalKec_eq _ hRC]
    unfold groupSum
    rw [List.map_map, List.pairwise_map]
    refine (sorted_sortedKeys (runAcc files code).resultKec.rows "kec").imp ?_
    intro k1 k2 hle a b ha hb
    simp only [Function.comp_apply] at ha hb
    rw [getCol_append_single _ _ _ _ (by decide), getCol_groupRow_key] at ha hb
    subst ha
    subst hb
    simpa [valLe, valLeB] using hle

/-- Witness for C10 at the demo run (file A lists sub-district 2 before
sub-district 1; the output is nevertheless ascending). -/
theorem c10_witness :
    (finalKec (runAcc demoFiles 7205).resultKec).rows.Pairwise (fun r1 r2 =>
      ∀ a b : Int, getCol r1 "kec" = Val.num a → getCol r2 "kec" = Val.num b
        → a ≤ b) :=
  c10_sorted_by_kec demoFiles 7205 _ rfl

/-- Column names of the non-empty final kecamatan summary. -/
theorem colNames_finalKec (rc : DF) (h : ¬ rc.rows = []) :
    colNames (finalKec rc) = "kec" :: (columnsToSum ++ ["SUM"]) := by
  rw [finalKec_eq _ h]
  simp [colNames, List.map_map, Function.comp_def]

/-- C9: whenever the returned sub-district summary is non-empty, its
columns are exactly the sub-district code `kec`, the six fixed measure
columns and `SUM`, in that order — both in the schema and in every row;
the per-file `file` tag added during within-file aggregation and the
`id_prov`/`id_kab`/`id_kec` identifier columns of the inputs are dropped
by the cross-file re-grouping and never appear. -/
theorem c9_final_columns (files : List XFile) (code : Int) (d : DF)
    (hd : (processFiles files code).2 = some d) (hne : ¬ d.rows = []) :
    colNames d = "kec" :: (columnsToSum ++ ["SUM"])
      ∧ (∀ r ∈ d.rows, rowNames r = "kec" :: (columnsToSum ++ ["SUM"]))
      ∧ "file" ∉ colNames d ∧ "id_prov" ∉ colNames d
      ∧ "id_kab" ∉ colNames d ∧ "id_kec" ∉ colNames d := by
  rw [processFiles_snd files code d hd] at hne ⊢
  have hRC : ¬ (runAcc files code).resultKec.rows = [] := by
    intro hcon
    apply hne
    unfold finalKec
    rw [if_pos (by simpa [List.isEmpty_iff] using hcon), hcon]
  have hcn := colNames_finalKec (runAcc files code).resultKec hRC
  refine ⟨hcn, ?_, ?_, ?_, ?_, ?_⟩
  · intro r hr
    obtain ⟨k, hk, hkr⟩ :=
      mem_finalKec_rows (runAcc files code).resultKec r hr
    subst hkr
    show List.map Prod.fst _ = _
    rw [List.map_append, show (List.map Prod.fst
        (groupRow (runAcc files code).resultKec.rows "kec" columnsToSum k))
      = rowNames (groupRow (runAcc files code).resultKec.rows "kec"
        columnsToSum k) from rfl, rowNames_groupRow]
    rfl
  · rw [hcn]; decide
  · rw [hcn]; decide
  · rw [hcn]; decide
  · rw [hcn]; decide

/-- Witness for C9 at the demo run. -/
theorem c9_witness :
    colNames (finalKec (runAcc demoFiles 7205).resultKec)
        = "kec" :: (columnsToSum ++ ["SUM"])
      ∧ (∀ r ∈ (finalKec (runAcc demoFiles 7205).resultKec).rows,
          rowNames r = "kec" :: (columnsToSum ++ ["SUM"]))
      ∧ "file" ∉ colNames (finalKec (runAcc demoFiles 7205).resultKec)
      ∧ "id_prov" ∉ colNames (finalKec (runAcc demoFiles 7205).resultKec)
      ∧ "id_kab" ∉ colNames (finalKec (runAcc demoFiles 7205).resultKec)
      ∧ "id_kec" ∉ colNames (finalKec (runAcc demoFiles 7205).resultKec) :=
  c9_final_columns demoFiles 7205 _ rfl (by decide)

/-- C8, counterexample: a run whose kecamatan input sheet carries all
three identifier columns (`fileIds`), yet the returned summary attaches
no renamed text column at all — there is no `prov` and the `kab` binding
is absent (reads as `NaN`), while the claim promises text-converted
renamed columns; even `kec` holds the raw numeric group key, not text. -/
theorem c8_counterexample :
    (fileIds.kecSheet.getD DF.empty).hasCol "id_prov" = true
      ∧ (fileIds.kecSheet.getD DF.empty).hasCol "id_kab" = true
      ∧ (fileIds.kecSheet.getD DF.empty).hasCol "id_kec" = true
      ∧ "prov" ∉ colNames (finalKec (runAcc [fileIds] 7205).resultKec)
      ∧ "kab" ∉ colNames (finalKec (runAcc [fileIds] 7205).resultKec)
      ∧ getCol ((finalKec (runAcc [fileIds] 7205).resultKec).rows.head?.getD [])
          "prov" = Val.nan
      ∧ getCol ((finalKec (runAcc [fileIds] 7205).resultKec).rows.head?.getD [])
          "kec" = Val.num 1 := by decide

/-- C8, amended: the within-file grouping keeps only `kec` and the six
measure columns, so the accumulated sub-district data never contains
`id_prov`, `id_kab` or `id_kec`; the attachment loop therefore logs all
three as missing and attaches nothing (without error): the final summary
carries no `prov` or `kab` column, and every row reads `NaN` at those
names; `kec` is only present as the raw grouping key. -/
theorem c8_ids_never_attached (files : List XFile) (code : Int) (d : DF)
    (hd : (processFiles files code).2 = some d) (hne : ¬ d.rows = []) :
    "prov" ∉ colNames d ∧ "kab" ∉ colNames d
      ∧ ∀ r ∈ d.rows, getCol r "prov" = Val.nan ∧ getCol r "kab" = Val.nan := by
  rw [processFiles_snd files code d hd] at hne ⊢
  have hRC : ¬ (runAcc files code).resultKec.rows = [] := by
    intro hcon
    apply hne
    unfold finalKec
    rw [if_pos (by simpa [List.isEmpty_iff] using hcon), hcon]
  have hcn := colNames_finalKec (runAcc files code).resultKec hRC
  refine ⟨by rw [hcn]; decide, by rw [hcn]; decide, ?_⟩
  intro r hr
  obtain ⟨k, hk, hkr⟩ :=
    mem_finalKec_rows (runAcc files code).resultKec r hr
  subst hkr
  constructor
  · rw [getCol_append_single _ _ _ _ (by decide),
      getCol_groupRow_not_mem _ _ _ _ _ (by decide) (by decide)]
  · rw [getCol_append_single _ _ _ _ (by decide),
      getCol_groupRow_not_mem _ _ _ _ _ (by decide) (by decide)]

/-- Witness for the amended C8 at a run whose input does carry the
identifier columns. -/
theorem c8_amended_witness :
    "prov" ∉ colNames (finalKec (runAcc [fileIds] 7205).resultKec)
      ∧ "kab" ∉ colNames (finalKec (runAcc [fileIds] 7205).resultKec)
      ∧ ∀ r ∈ (finalKec (runAcc [fileIds] 7205).resultKec).rows,
          getCol r "prov" = Val.nan ∧ getCol r "kab" = Val.nan :=
  c8_ids_never_attached [fileIds] 7205 _ rfl (by decide)

/-! District-summary lemmas. -/

theorem processFiles_fst (files : List XFile) (code : Int) (r : Row)
    (hr : (processFiles files code).1 = some r) :
    ¬ (runAcc files code).resultKab.rows = []
      ∧ r = attachKabIds (runAcc files code).resultKab
            (baseRow (runAcc files code).resultKab) := by
  unfold processFiles at hr
  by_cases hf : files.isEmpty = true
  · rw [if_pos hf] at hr
    exact Option.noConfusion hr
  · rw [if_neg hf] at hr
    have hr2 : summaryKab (runAcc files code).resultKab = some r := hr
    unfold summaryKab at hr2
    by_cases hE : (runAcc files code).resultKab.rows.isEmpty = true
    · rw [if_pos hE] at hr2
      exact Option.noConfusion hr2
    · rw [if_neg hE] at hr2
      exact ⟨by simpa [List.isEmpty_iff] using hE, (Option.some.inj hr2).symm⟩

theorem rowNames_baseRow (d : DF) : rowNames (baseRow d) = rowToSum d := by
  simp [baseRow, rowNames, List.map_map, Function.comp_def]

theorem excluded_not_mem_rowToSum (d : DF) :
    "id_komoditas" ∉ rowToSum d ∧ "ID" ∉ rowToSum d := by
  constructor
  · intro h
    unfold rowToSum at h
    rw [List.mem_filter] at h
    exact absurd h.2 (by decide)
  · intro h
    unfold rowToSum at h
    rw [List.mem_filter] at h
    exact absurd h.2 (by decide)

/-- C2, counterexample: on the demo run the column `kab` is numeric and
not excluded, so the claim says its summary cell is the column sum
(`7205 + 7205 = 14410`); but the identifier-attachment loop renames
`id_kab` to `kab` and overwrites the summed cell with the first row's
`id_kab` value `99`. -/
theorem c2_counterexample :
    "kab" ∈ rowToSum (runAcc demoFiles 7205).resultKab
      ∧ getCol (((processFiles demoFiles 7205).1).getD []) "kab" = Val.num 99
      ∧ colSum (contribs (kabContrib 7205) demoFiles) "kab" = 14410
      ∧ ¬ (99 : Int) = 14410 := by decide

/-- C2, amended: whenever at least one district-level row matches the
requested code, the district summary is the single summed row: every
numeric column other than the excluded `id_komoditas` and `ID` — and
other than a column that the identifier-attachment step overwrites,
namely `prov` when `id_prov` is present and `kab` when `id_kab` is
present — equals the arithmetic sum of that column over all matching
rows from every file; `id_komoditas` and `ID` are never summed. -/
theorem c2_district_sum (files : List XFile) (code : Int)
    (hne : ¬ contribs (kabContrib code) files = []) :
    ∃ r, (processFiles files code).1 = some r
      ∧ "id_komoditas" ∉ rowToSum (runAcc files code).resultKab
      ∧ "ID" ∉ rowToSum (runAcc files code).resultKab
      ∧ ∀ c ∈ rowToSum (runAcc files code).resultKab,
          ((runAcc files code).resultKab.hasCol "id_prov" = true → ¬ c = "prov") →
          ((runAcc files code).resultKab.hasCol "id_kab" = true → ¬ c = "kab") →
          getCol r c = Val.num (colSum (contribs (kabContrib code) files) c) := by
  have hfne : ¬ files = [] := by
    intro hcon
    rw [hcon] at hne
    exact hne rfl
  have hrows : (runAcc files code).resultKab.rows
      = contribs (kabContrib code) files := runAcc_resultKab_rows files code
  have hRE : ¬ (runAcc files code).resultKab.rows.isEmpty = true := by
    rw [hrows]
    simpa [List.isEmpty_iff] using hne
  refine ⟨attachKabIds (runAcc files code).resultKab
      (baseRow (runAcc files code).resultKab), ?_,
    (excluded_not_mem_rowToSum _).1, (excluded_not_mem_rowToSum _).2, ?_⟩
  · unfold processFiles
    rw [if_neg (by simpa [List.isEmpty_iff] using hfne)]
    show summaryKab _ = _
    unfold summaryKab
    rw [if_neg hRE]
  · intro c hc hp hk2
    have hbase : getCol (baseRow (runAcc files code).resultKab) c
        = Val.num (colSum (runAcc files code).resultKab.rows c) :=
      getCol_mapPairs _ _ c hc
    unfold attachKabIds
    rw [List.foldl_cons, List.foldl_cons, List.foldl_nil]
    by_cases h1 : (runAcc files code).resultKab.hasCol "id_prov" = true
    · rw [if_pos h1]
      by_cases h2 : (runAcc files code).resultKab.hasCol "id_kab" = true
      · rw [if_pos h2, getCol_setCol_ne _ _ _ _ (hk2 h2),
          getCol_setCol_ne _ _ _ _ (hp h1), hbase, hrows]
      · rw [if_neg h2, getCol_setCol_ne _ _ _ _ (hp h1), hbase, hrows]
    · rw [if_neg h1]
      by_cases h2 : (runAcc files code).resultKab.hasCol "id_kab" = true
      · rw [if_pos h2, getCol_setCol_ne _ _ _ _ (hk2 h2), hbase, hrows]
      · rw [if_neg h2, hbase, hrows]

/-- Witness for the amended C2 at the demo run (both `id_prov` and
`id_kab` are present there, `x` is an untouched summed column). -/
theorem c2_amended_witness :
    ∃ r, (processFiles demoFiles 7205).1 = some r
      ∧ "id_komoditas" ∉ rowToSum (runAcc demoFiles 7205).resultKab
      ∧ "ID" ∉ rowToSum (runAcc demoFiles 7205).resultKab
      ∧ ∀ c ∈ rowToSum (runAcc demoFiles 7205).resultKab,
          ((runAcc demoFiles 7205).resultKab.hasCol "id_prov" = true → ¬ c = "prov") →
          ((runAcc demoFiles 7205).resultKab.hasCol "id_kab" = true → ¬ c = "kab") →
          getCol r c = Val.num (colSum (contribs (kabContrib 7205) demoFiles) c) :=
  c2_district_sum demoFiles 7205 (by decide)

/-- C7: whenever the district summary is present, its `prov` (resp. `kab`)
cell is the value of `id_prov` (resp. `id_kab`) in the first accumulated
matching row — taken unsummed, in file/row discovery order, as the
accumulator equation states — provided that identifier column occurs in
the accumulated data; an absent identifier column is logged and simply
omitted: no renamed column is added beyond the summed ones. -/
theorem c7_district_ids (files : List XFile) (code : Int) (r : Row)
    (hr : (processFiles files code).1 = some r) :
    (runAcc files code).resultKab.rows = contribs (kabContrib code) files
      ∧ ((runAcc files code).resultKab.hasCol "id_prov" = true →
          getCol r "prov" = firstVal (runAcc files code).resultKab "id_prov")
      ∧ ((runAcc files code).resultKab.hasCol "id_kab" = true →
          getCol r "kab" = firstVal (runAcc files code).resultKab "id_kab")
      ∧ ((runAcc files code).resultKab.hasCol "id_prov" = false →
          ("prov" ∈ rowNames r
            ↔ "prov" ∈ rowToSum (runAcc files code).resultKab))
      ∧ ((runAcc files code).resultKab.hasCol "id_kab" = false →
          ("kab" ∈ rowNames r
            ↔ "kab" ∈ rowToSum (runAcc files code).resultKab)) := by
  obtain ⟨hne, hr2⟩ := processFiles_fst files code r hr
  subst hr2
  refine ⟨runAcc_resultKab_rows files code, ?_, ?_, ?_, ?_⟩
  · intro h1
    unfold attachKabIds
    rw [List.foldl_cons, List.foldl_cons, List.foldl_nil, if_pos h1]
    by_cases h2 : (runAcc files code).resultKab.hasCol "id_kab" = true
    · rw [if_pos h2, getCol_setCol_ne _ _ _ _ (by decide), getCol_setCol_self]
    · rw [if_neg h2, getCol_setCol_self]
  · intro h2
    unfold attachKabIds
    rw [List.foldl_cons, List.foldl_cons, List.foldl_nil, if_pos h2,
      getCol_setCol_self]
  · intro h1
    unfold attachKabIds
    rw [List.foldl_cons, List.foldl_cons, List.foldl_nil]
    by_cases h2 : (runAcc files code).resultKab.hasCol "id_kab" = true
    · rw [if_pos h2, mem_rowNames_setCol, if_neg (by simp [h1]),
        rowNames_baseRow]
      simp [show ¬ ("prov" : String) = "kab" from by decide]
    · rw [if_neg h2, if_neg (by simp [h1]), rowNames_baseRow]
  · intro h2
    unfold attachKabIds
    rw [List.foldl_cons, List.foldl_cons, List.foldl_nil, if_neg (by simp [h2])]
    by_cases h1 : (runAcc files code).resultKab.hasCol "id_prov" = true
    · rw [if_pos h1, mem_rowNames_setCol, rowNames_baseRow]
      simp [show ¬ ("kab" : String) = "prov" from by decide]
    · rw [if_neg h1, rowNames_baseRow]

/-- Witness for C7 at the demo run: the summary row carries
`prov = 72` and `kab = 99`, the first accumulated row's identifiers. -/
theorem c7_witness :
    (runAcc demoFiles 7205).resultKab.rows = contribs (kabContrib 7205) demoFiles
      ∧ ((runAcc demoFiles 7205).resultKab.hasCol "id_prov" = true →
          getCol demoSummaryRow "prov"
            = firstVal (runAcc demoFiles 7205).resultKab "id_prov")
      ∧ ((runAcc demoFiles 7205).resultKab.hasCol "id_kab" = true →
          getCol demoSummaryRow "kab"
            = firstVal (runAcc demoFiles 7205).resultKab "id_kab")
      ∧ ((runAcc demoFiles 7205).resultKab.hasCol "id_prov" = false →
          ("prov" ∈ rowNames demoSummaryRow
            ↔ "prov" ∈ rowToSum (runAcc demoFiles 7205).resultKab))
      ∧ ((runAcc demoFiles 7205).resultKab.hasCol "id_kab" = false →
          ("kab" ∈ rowNames demoSummaryRow
            ↔ "kab" ∈ rowToSum (runAcc demoFiles 7205).resultKab)) :=
  c7_district_ids demoFiles 7205 demoSummaryRow (by decide)

/-! Failure handling. -/

/-- C4, counterexample: `fileBad`'s processing fails (its kecamatan sheet
is missing), yet the district aggregate is not the correct sum over the
rows of the non-failing files: the bad file's already-appended district
row inflates `x` to `11`, while the sum over the non-failing file is `1`. -/
theorem c4_counterexample :
    kecOk fileBad = false
      ∧ getCol (((processFiles [fileGood, fileBad] 7205).1).getD []) "x"
          = Val.num 11
      ∧ colSum (contribs (kabContrib 7205) [fileGood]) "x" = 1
      ∧ ¬ (11 : Int) = 1 := by decide

/-- C4, amended: a failure never aborts the run (the loop is total), and a
file that fails while loading or filtering its district sheet — before
anything is committed — contributes nothing: removing it from a run that
still has at least one other candidate leaves both outputs unchanged, so
the aggregates equal the correct sums over the remaining files.  A file
failing only at the sub-district stage, however, keeps its
already-appended district rows (see the counterexample). -/
theorem c4_bad_file_skipped (l1 l2 : List XFile) (f : XFile) (code : Int)
    (hbad : kabBad f = true) (hne : ¬ (l1 ++ l2) = []) :
    processFiles (l1 ++ f :: l2) code = processFiles (l1 ++ l2) code := by
  have hrun : runAcc (l1 ++ f :: l2) code = runAcc (l1 ++ l2) code := by
    unfold runAcc
    rw [List.foldl_append, List.foldl_cons, step_of_kabBad code _ f hbad,
      ← List.foldl_append]
  unfold processFiles
  rw [hrun, if_neg (by simp [List.isEmpty_iff]),
    if_neg (by simpa [List.isEmpty_iff] using hne)]

/-- Witness for the amended C4: dropping an unreadable file from a
two-candidate run leaves the outputs unchanged. -/
theorem c4_witness :
    processFiles ([fileGood] ++ fileUnreadable :: []) 7205
      = processFiles ([fileGood] ++ []) 7205 :=
  c4_bad_file_skipped [fileGood] [] fileUnreadable 7205 (by decide) (by decide)

/-- C5, counterexample: `fileBad` fails (missing kecamatan sheet), yet the
district accumulator is not unchanged — it gains the file's matching
district row, because line 65 commits `result_kab` before line 68 raises. -/
theorem c5_counterexample :
    kecOk fileBad = false
      ∧ (runAcc [fileBad] 7205).resultKab.rows
          = [[("kab", Val.num 7205), ("x", Val.num 10)]] := by decide

/-- C5, amended: a file on which some stage raises contributes no rows to
the sub-district accumulator, whichever stage failed; but only a file
failing at the district-sheet stage (before the line-65 commit) leaves
the district accumulator unchanged as well — a later failure keeps the
already-appended district rows. -/
theorem c5_failed_file_contribution (code : Int) (acc : Acc) (f : XFile)
    (h : kecOk f = false) :
    (step code acc f).resultKec = acc.resultKec
      ∧ (kabBad f = true → step code acc f = acc) :=
  ⟨step_resultKec_of_not_kecOk code acc f h,
   fun hb => step_of_kabBad code acc f hb⟩

/-- Witness for the amended C5 at the failing demo file. -/
theorem c5_witness :
    (step 7205 ⟨DF.empty, DF.empty⟩ fileBad).resultKec
        = (Acc.mk DF.empty DF.empty).resultKec
      ∧ (kabBad fileBad = true →
          step 7205 ⟨DF.empty, DF.empty⟩ fileBad = Acc.mk DF.empty DF.empty) :=
  c5_failed_file_contribution 7205 ⟨DF.empty, DF.empty⟩ fileBad (by decide)

/-! Absence of data. -/

theorem contribs_eq_nil (g : XFile → List Row) (files : List XFile)
    (h : ∀ f ∈ files, g f = []) : contribs g files = [] := by
  induction files with
  | nil => rfl
  | cons f t ih =>
    rw [contribs, h f (List.mem_cons_self _ _),
      ih (fun q hq => h q (List.mem_cons_of_mem _ hq))]
    rfl

theorem kabContrib_eq_nil (code : Int) (f : XFile)
    (h : sheetMatchRows f.kabSheet code = []) : kabContrib code f = [] := by
  obtain ⟨nm, kabS, kecS⟩ := f
  cases kabS with
  | none => rfl
  | some d =>
    simp only [sheetMatchRows] at h
    simp [kabContrib, h]

theorem kecContrib_eq_nil (code : Int) (f : XFile)
    (h : sheetMatchRows f.kecSheet code = []) : kecContrib code f = [] := by
  unfold kecContrib
  by_cases hko : kecOk f = true
  · rw [if_pos hko, h]
    rfl
  · rw [if_neg hko]

/-- C6: absence of data never raises.  With zero candidate files the call
returns `(None, None)` immediately; with candidates but no row matching
the requested district code in any loaded sheet, the district summary is
`None` and the sub-district summary is an empty table — in either case a
value is returned (the embedding is total; every pandas call that could
raise is modelled and caught by the loop's handler). -/
theorem c6_no_data (files : List XFile) (code : Int)
    (h : ∀ f ∈ files, sheetMatchRows f.kabSheet code = []
          ∧ sheetMatchRows f.kecSheet code = []) :
    (files = [] → processFiles files code = (none, none))
      ∧ (¬ files = [] → (processFiles files code).1 = none
          ∧ ∃ d, (processFiles files code).2 = some d ∧ d.rows = []) := by
  constructor
  · intro hnil
    subst hnil
    rfl
  · intro hne
    have hRK : (runAcc files code).resultKab.rows = [] := by
      rw [runAcc_resultKab_rows]
      exact contribs_eq_nil _ _ (fun f hf => kabContrib_eq_nil code f (h f hf).1)
    have hRC : (runAcc files code).resultKec.rows = [] := by
      rw [runAcc_resultKec_rows]
      exact contribs_eq_nil _ _ (fun f hf => kecContrib_eq_nil code f (h f hf).2)
    unfold processFiles
    rw [if_neg (by simpa [List.isEmpty_iff] using hne)]
    constructor
    · show summaryKab _ = none
      unfold summaryKab
      rw [if_pos (by simpa [List.isEmpty_iff] using hRK)]
    · refine ⟨finalKec (runAcc files code).resultKec, rfl, ?_⟩
      unfold finalKec
      rw [if_pos (by simpa [List.isEmpty_iff] using hRC)]
      exact hRC

/-- Witness for C6 at a run with one candidate and no matching row. -/
theorem c6_witness :
    (([fileNoMatch] : List XFile) = [] →
        processFiles [fileNoMatch] 7205 = (none, none))
      ∧ (¬ ([fileNoMatch] : List XFile) = [] →
          (processFiles [fileNoMatch] 7205).1 = none
            ∧ ∃ d, (processFiles [fileNoMatch] 7205).2 = some d ∧ d.rows = []) :=
  c6_no_data [fileNoMatch] 7205 (by decide)

end SumKomoditas
